import Mathlib

/-!
Verification of the pytonapi transport core (request/response layer,
retry policy, error mapping) against a shallow embedding of
src/pytonapi/async_tonapi/client.py, src/pytonapi/exceptions.py and
src/pytonapi/tonapi/methods/accounts.py.
-/

namespace PyTonapi

/-- JSON values as produced by decoding a response body. -/
inductive Json where
  | null
  | bool (b : Bool)
  | num (n : Int)
  | str (s : String)
  | arr (xs : List Json)
  | obj (fields : List (String × Json))
deriving Repr

/-- Model of Python dict.get on a decoded JSON object: first binding of the
key, none when absent.  Only called on objects in the source. -/
def Json.get (j : Json) (k : String) : Option Json :=
  match j with
  | .obj fields => fields.lookup k
  | _ => none

/-- Python truthiness of a JSON value (empty containers, zero, empty string,
false and null are falsy). -/
def Json.truthy : Json → Bool
  | .null => false
  | .bool b => b
  | .num n => n != 0
  | .str s => s != ""
  | .arr xs => !xs.isEmpty
  | .obj fs => !fs.isEmpty

/-- The error payload attached to a raised exception: either a JSON value
(from the decoded body) or raw response text (from the non-JSON fallback). -/
inductive ErrValue where
  | json (j : Json)
  | text (s : String)
deriving Repr

/-- Python truthiness of an error payload. -/
def ErrValue.truthy : ErrValue → Bool
  | .json j => j.truthy
  | .text s => s != ""

/-- Fixed message of TONAPIUnauthorizedError (src/pytonapi/exceptions.py). -/
def unauthorizedMessage : String :=
  "API key is missing or invalid. You can get an access token here https://tonconsole.com/"

/-- Fixed message of TONAPINotFoundError (src/pytonapi/exceptions.py). -/
def notFoundMessage : String :=
  "Error 404: Method does not exist."

/-- Fallback message of TONAPITooManyRequestsError (src/pytonapi/exceptions.py). -/
def tooManyRequestsFallback : String :=
  "Too many requests per second. Upgrade your plan on https://tonconsole.com/tonapi/pricing."

/-- Message computation of TONAPITooManyRequestsError.__init__: the argument
when it is supplied and truthy, else the fixed fallback text. -/
def tooManyRequestsMessage : Option ErrValue → ErrValue
  | some e => if e.truthy then e else .text tooManyRequestsFallback
  | none => .text tooManyRequestsFallback

/-- The payload a successful call delivers: the decoded JSON, or the boolean
placeholder used when the body is not JSON. -/
inductive Payload where
  | json (j : Json)
  | bool (b : Bool)
deriving Repr

/-- Result of AsyncTonapiClient.__process_response: either a normal return
(success) or one of the raised exceptions of the TONAPIError hierarchy,
carrying the message the exception is constructed with. -/
inductive ApiOutcome where
  | success (payload : Payload)
  | badRequest (error : ErrValue)
  | unauthorized (message : String)
  | notFound (message : String)
  | tooManyRequests (message : ErrValue)
  | internalServerError (error : ErrValue)
  | apiError (error : ErrValue)
deriving Repr

/-- An HTTP response body: decodes as JSON, or is raw non-JSON text (the
ContentTypeError path in the source). -/
inductive Body where
  | json (payload : Json)
  | raw (text : String)
deriving Repr

/-- Error payload extracted from a decoded JSON body:
response.get(error-key, response). -/
def jsonError (j : Json) : ErrValue :=
  .json ((j.get "error").getD j)

/-- Shallow embedding of AsyncTonapiClient.__process_response: decode the
body (or fall back to text with a boolean placeholder), then dispatch on
the status code. -/
def processResponse (status : Nat) (body : Body) : ApiOutcome :=
  let resp : Payload :=
    match body with
    | .json j => .json j
    | .raw _ => .bool (status == 200)
  let error : ErrValue :=
    match body with
    | .json j => jsonError j
    | .raw t => .text t
  if status = 200 then .success resp
  else if status = 400 then .badRequest error
  else if status = 401 then .unauthorized unauthorizedMessage
  else if status = 404 then .notFound notFoundMessage
  else if status = 429 then .tooManyRequests (tooManyRequestsMessage (some error))
  else if status = 500 then .internalServerError error
  else .apiError error

/-- Classification of an outcome by its constructor. -/
inductive OutcomeKind where
  | success
  | badRequest
  | unauthorized
  | notFound
  | tooManyRequests
  | internalServerError
  | apiError
deriving Repr, DecidableEq

/-- The kind of an outcome. -/
def ApiOutcome.kind : ApiOutcome → OutcomeKind
  | .success _ => .success
  | .badRequest _ => .badRequest
  | .unauthorized _ => .unauthorized
  | .notFound _ => .notFound
  | .tooManyRequests _ => .tooManyRequests
  | .internalServerError _ => .internalServerError
  | .apiError _ => .apiError

/-- The outcome kind the status dispatch of __process_response selects. -/
def statusKind (status : Nat) : OutcomeKind :=
  if status = 200 then .success
  else if status = 400 then .badRequest
  else if status = 401 then .unauthorized
  else if status = 404 then .notFound
  else if status = 429 then .tooManyRequests
  else if status = 500 then .internalServerError
  else .apiError

/-- C2: for every response body that decodes as a JSON object, the status
dispatch of __process_response yields exactly the documented outcome per
status: 200 returns the payload, 400 raises BadRequest with the extracted
error, 401 raises Unauthorized with its fixed message, 404 raises NotFound
with its fixed message, 429 raises TooManyRequests with the extracted error
or the fixed fallback, 500 raises InternalServerError with the extracted
error, and any other status raises the base error with the extracted
payload. -/
theorem processResponse_status_dispatch (fields : List (String × Json)) :
    processResponse 200 (.json (.obj fields)) = .success (.json (.obj fields)) ∧
    processResponse 400 (.json (.obj fields)) = .badRequest (jsonError (.obj fields)) ∧
    processResponse 401 (.json (.obj fields)) = .unauthorized unauthorizedMessage ∧
    processResponse 404 (.json (.obj fields)) = .notFound notFoundMessage ∧
    processResponse 429 (.json (.obj fields)) =
      .tooManyRequests (tooManyRequestsMessage (some (jsonError (.obj fields)))) ∧
    processResponse 500 (.json (.obj fields)) =
      .internalServerError (jsonError (.obj fields)) ∧
    ∀ s : Nat, s ∉ ([200, 400, 401, 404, 429, 500] : List Nat) →
      processResponse s (.json (.obj fields)) = .apiError (jsonError (.obj fields)) := by
  refine ⟨rfl, rfl, rfl, rfl, rfl, rfl, ?_⟩
  intro s hs
  simp only [List.mem_cons, List.not_mem_nil, or_false] at hs
  push_neg at hs
  obtain ⟨h200, h400, h401, h404, h429, h500⟩ := hs
  simp [processResponse, h200, h400, h401, h404, h429, h500]

/-- Witness for C2: a concrete teapot status with a concrete error object. -/
theorem processResponse_status_dispatch_witness :
    processResponse 418 (.json (.obj [("error", .str "boom")])) =
      .apiError (.json (.str "boom")) :=
  (processResponse_status_dispatch [("error", .str "boom")]).2.2.2.2.2.2 418 (by decide)

/-- Counterexample to C6: a 404 response with a non-JSON body is not treated
as a successful call with payload false; __process_response still raises
NotFound, because the status dispatch runs after the fallback assignment. -/
theorem nonJson404_raises_counterexample :
    processResponse 404 (.raw "nope") = .notFound notFoundMessage ∧
    processResponse 404 (.raw "nope") ≠ .success (.bool false) := by
  constructor
  · rfl
  · intro h
    simp [processResponse] at h

/-- C6 amended: when the body fails JSON decoding, the boolean placeholder
(status equal to 200) replaces the payload, but it is delivered to the
caller only for status 200, as true; for every other status the status
dispatch still raises the mapped error, so the call is not successful and
false is never returned. -/
theorem nonJson_fallback_only_succeeds_at_200 (t : String) :
    processResponse 200 (.raw t) = .success (.bool true) ∧
    ∀ s : Nat, s ≠ 200 → ∀ p : Payload, processResponse s (.raw t) ≠ .success p := by
  refine ⟨rfl, ?_⟩
  intro s hs p h
  simp only [processResponse, jsonError] at h
  split at h
  · exact hs (by assumption)
  · split at h <;> try exact ApiOutcome.noConfusion h
    split at h <;> try exact ApiOutcome.noConfusion h
    split at h <;> try exact ApiOutcome.noConfusion h
    split at h <;> try exact ApiOutcome.noConfusion h
    split at h <;> exact ApiOutcome.noConfusion h

/-- Witness for the amended C6 at status 503 with an empty text body. -/
theorem nonJson_fallback_only_succeeds_at_200_witness :
    processResponse 200 (.raw "") = .success (.bool true) ∧
    processResponse 503 (.raw "") ≠ .success (.bool false) :=
  ⟨(nonJson_fallback_only_succeeds_at_200 "").1,
   (nonJson_fallback_only_succeeds_at_200 "").2 503 (by decide) (.bool false)⟩

/-- C9: for every non-200 status, __process_response never returns normally:
its outcome always has the kind mapped from the status code, also for
non-JSON bodies, and it is never a success; consequently the boolean
placeholder false is never delivered to a caller. -/
theorem non200_always_raises :
    (∀ (s : Nat) (body : Body), s ≠ 200 →
      (processResponse s body).kind = statusKind s ∧
      ∀ p : Payload, processResponse s body ≠ .success p) ∧
    ∀ (s : Nat) (body : Body), processResponse s body ≠ .success (.bool false) := by
  have hkind : ∀ (s : Nat) (body : Body), (processResponse s body).kind = statusKind s := by
    intro s body
    simp only [processResponse, statusKind]
    split
    · rfl
    · split
      · rfl
      · split
        · rfl
        · split
          · rfl
          · split
            · rfl
            · split <;> rfl
  have hnosucc : ∀ (s : Nat) (body : Body), s ≠ 200 →
      ∀ p : Payload, processResponse s body ≠ .success p := by
    intro s body hs p h
    have := hkind s body
    rw [h] at this
    simp only [ApiOutcome.kind, statusKind] at this
    split at this
    · exact hs (by assumption)
    · split at this <;> try exact OutcomeKind.noConfusion this
      split at this <;> try exact OutcomeKind.noConfusion this
      split at this <;> try exact OutcomeKind.noConfusion this
      split at this <;> try exact OutcomeKind.noConfusion this
      split at this <;> exact OutcomeKind.noConfusion this
  refine ⟨fun s body hs => ⟨hkind s body, hnosucc s body hs⟩, ?_⟩
  intro s body h
  by_cases hs : s = 200
  · subst hs
    cases body with
    | json j =>
        simp only [processResponse] at h
        cases h
    | raw t =>
        simp only [processResponse] at h
        cases h
  · exact hnosucc s body hs (.bool false) h

/-- Witness for C9 at status 404 with a raw body. -/
theorem non200_always_raises_witness :
    (processResponse 404 (.raw "x")).kind = statusKind 404 ∧
    processResponse 404 (.raw "x") ≠ .success (.bool false) :=
  ⟨(non200_always_raises.1 404 (.raw "x") (by decide)).1,
   non200_always_raises.2 404 (.raw "x")⟩

/-- A server behaviour: the HTTP status and body received on attempt i. -/
def Server : Type := Nat → Nat × Body

/-- The outcome __process_response produces on attempt i against a server. -/
def attemptOutcome (server : Server) (i : Nat) : ApiOutcome :=
  processResponse (server i).1 (server i).2

/-- Whether an outcome is the rate-limit exception, the only one caught by
the except clause of AsyncTonapiClient.__retry. -/
def ApiOutcome.isRateLimited : ApiOutcome → Bool
  | .tooManyRequests _ => true
  | _ => false

/-- Loop body of AsyncTonapiClient.__retry, by remaining iterations: attempt
i is issued; a rate-limit outcome is swallowed and the loop continues with
the next attempt; any other outcome is returned or raised at once.  When the
iterations are exhausted the no-argument rate-limit exception is raised.
The second component counts the HTTP attempts actually performed. -/
def retryGo (server : Server) : Nat → Nat → ApiOutcome × Nat
  | _, 0 => (.tooManyRequests (tooManyRequestsMessage none), 0)
  | i, n + 1 =>
    let o := attemptOutcome server i
    if o.isRateLimited then
      let r := retryGo server (i + 1) n
      (r.1, r.2 + 1)
    else
      (o, 1)

/-- Shallow embedding of AsyncTonapiClient.__retry: run the bounded loop
from attempt 0 with max retries iterations. -/
def retryRun (maxRetries : Nat) (server : Server) : ApiOutcome × Nat :=
  retryGo server 0 maxRetries

/-- Every 429 response is mapped to the rate-limit exception, whatever the
body. -/
theorem isRateLimited_of_429 (body : Body) :
    (processResponse 429 body).isRateLimited = true := by
  cases body <;> rfl

/-- When the first n attempts from index i are all rate limited, the loop
exhausts its n iterations and ends with the no-argument rate-limit raise. -/
theorem retryGo_all_rate_limited (server : Server) :
    ∀ n i, (∀ j, j < n → (attemptOutcome server (i + j)).isRateLimited = true) →
      retryGo server i n = (.tooManyRequests (.text tooManyRequestsFallback), n) := by
  intro n
  induction n with
  | zero => intro i _; rfl
  | succ m ih =>
      intro i h
      have h0 : (attemptOutcome server i).isRateLimited = true := by
        have := h 0 (Nat.succ_pos m)
        simpa using this
      have hrest : ∀ j, j < m → (attemptOutcome server (i + 1 + j)).isRateLimited = true := by
        intro j hj
        have := h (j + 1) (Nat.succ_lt_succ hj)
        simpa [Nat.add_assoc, Nat.add_comm 1 j] using this
      simp only [retryGo, h0, if_true, ih (i + 1) hrest]

/-- When attempts i, i+1, ..., i+k-1 are rate limited and attempt i+k is
not, the loop stops at attempt i+k: that outcome is returned or raised and
exactly k+1 attempts were performed in the remaining iterations. -/
theorem retryGo_first_settles (server : Server) :
    ∀ n i k, k < n →
      (∀ j, j < k → (attemptOutcome server (i + j)).isRateLimited = true) →
      (attemptOutcome server (i + k)).isRateLimited = false →
      retryGo server i n = (attemptOutcome server (i + k), k + 1) := by
  intro n
  induction n with
  | zero => intro i k hk; exact absurd hk (Nat.not_lt_zero k)
  | succ m ih =>
      intro i k hk hbefore hstop
      cases k with
      | zero =>
          simp only [Nat.add_zero] at hstop
          simp only [retryGo, hstop, Bool.false_eq_true, if_false, Nat.add_zero]
      | succ l =>
          have h0 : (attemptOutcome server i).isRateLimited = true := by
            have := hbefore 0 (Nat.succ_pos l)
            simpa using this
          have hbefore2 : ∀ j, j < l →
              (attemptOutcome server (i + 1 + j)).isRateLimited = true := by
            intro j hj
            have := hbefore (j + 1) (Nat.succ_lt_succ hj)
            simpa [Nat.add_assoc, Nat.add_comm 1 j] using this
          have hstop2 : (attemptOutcome server (i + 1 + l)).isRateLimited = false := by
            simpa [Nat.add_assoc, Nat.add_comm 1 l] using hstop
          have hlt : l < m := Nat.lt_of_succ_lt_succ hk
          have hrec := ih (i + 1) l hlt hbefore2 hstop2
          simp only [retryGo, h0, if_true, hrec]
          rw [Nat.add_assoc, Nat.add_comm 1 l]

/-- C3: with max retries 3 against a server that answers every request with
status 429, the call performs exactly 3 HTTP attempts and then fails with
the no-argument rate-limit exception, which carries the fixed fallback
message rather than any server-supplied text. -/
theorem retry_three_429_exhausts (server : Server)
    (h : ∀ i, (server i).1 = 429) :
    retryRun 3 server = (.tooManyRequests (.text tooManyRequestsFallback), 3) := by
  apply retryGo_all_rate_limited
  intro j _
  have hst := h (0 + j)
  unfold attemptOutcome
  rw [hst]
  exact isRateLimited_of_429 (server (0 + j)).2

/-- Witness for C3: a server answering 429 with an empty raw body forever. -/
theorem retry_three_429_exhausts_witness :
    retryRun 3 (fun _ => (429, .raw "")) =
      (.tooManyRequests (.text tooManyRequestsFallback), 3) :=
  retry_three_429_exhausts (fun _ => (429, .raw "")) (fun _ => rfl)

/-- C4: rate limiting is the only outcome that causes another attempt.  If
the first k attempts are rate limited and attempt k is anything else
(success or any other error kind), the loop stops right there: the call
performs exactly k+1 attempts and delivers attempt k unchanged. -/
theorem retry_only_rate_limit_retries (maxRetries k : Nat) (server : Server)
    (hk : k < maxRetries)
    (hbefore : ∀ j, j < k → (attemptOutcome server j).isRateLimited = true)
    (hstop : (attemptOutcome server k).isRateLimited = false) :
    retryRun maxRetries server = (attemptOutcome server k, k + 1) := by
  have h := retryGo_first_settles server maxRetries 0 k hk
    (by simpa using hbefore) (by simpa using hstop)
  simpa [retryRun] using h

/-- Witness for C4: one 429, then a 400 that is raised without retry after
exactly 2 attempts. -/
theorem retry_only_rate_limit_retries_witness :
    retryRun 3 (fun i => if i = 0 then (429, .raw "") else (400, .json (.obj []))) =
      (.badRequest (.json (.obj [])), 2) :=
  retry_only_rate_limit_retries 3 1
    (fun i => if i = 0 then (429, .raw "") else (400, .json (.obj [])))
    (by decide)
    (by
      intro j hj
      have hj0 : j = 0 := Nat.lt_one_iff.mp hj
      subst hj0
      rfl)
    rfl

/-- C5: with max retries 3 against a server answering the first request with
429 and the second with 200 and a JSON payload, the call returns that
payload after exactly 2 HTTP attempts. -/
theorem retry_429_then_200 (server : Server) (p : Json)
    (h0 : (server 0).1 = 429) (h1 : server 1 = (200, .json p)) :
    retryRun 3 server = (.success (.json p), 2) := by
  have hb : ∀ j, j < 1 → (attemptOutcome server j).isRateLimited = true := by
    intro j hj
    have hj0 : j = 0 := Nat.lt_one_iff.mp hj
    subst hj0
    unfold attemptOutcome
    rw [h0]
    exact isRateLimited_of_429 (server 0).2
  have hs : (attemptOutcome server 1).isRateLimited = false := by
    unfold attemptOutcome
    rw [h1]
    rfl
  have h := retryGo_first_settles server 3 0 1 (by decide)
    (by simpa using hb) (by simpa using hs)
  have hout : attemptOutcome server (0 + 1) = .success (.json p) := by
    unfold attemptOutcome
    rw [Nat.zero_add, h1]
    rfl
  rw [retryRun, h, hout]

/-- Witness for C5: a 429 then a 200 with a null JSON payload. -/
theorem retry_429_then_200_witness :
    retryRun 3 (fun i => if i = 0 then (429, .raw "") else (200, .json .null)) =
      (.success (.json .null), 2) :=
  retry_429_then_200
    (fun i => if i = 0 then (429, .raw "") else (200, .json .null))
    .null rfl rfl

/-- C10: with max retries 0, the loop body never runs: zero HTTP attempts
are performed and the no-argument rate-limit exception is raised at once,
whatever the server would have answered. -/
theorem retry_zero_retries_raises (server : Server) :
    retryRun 0 server = (.tooManyRequests (.text tooManyRequestsFallback), 0) := rfl

/-- String-to-string mappings standing for the Python dicts passed as
params, body and headers. -/
abbrev Headers := List (String × String)

/-- Model of Python dict lookup: the first binding of the key. -/
def dictGet : Headers → String → Option String
  | [], _ => none
  | (a, b) :: t, k => if a = k then some b else dictGet t k

/-- Model of Python dict item assignment: replace the binding of the key in
place when present (keys in a list standing for a dict are unique), else
append the new binding at the end. -/
def dictSet : Headers → String → String → Headers
  | [], k, v => [(k, v)]
  | (a, b) :: t, k, v => if a = k then (k, v) :: t else (a, b) :: dictSet t k v

/-- Model of Python dict.update: assign every binding of the other dict in
order. -/
def dictUpdate (d other : Headers) : Headers :=
  other.foldl (fun acc p => dictSet acc p.1 p.2) d

/-- The default headers stored by AsyncTonapiClient.__init__: a single
Authorization bearer entry built from the API key. -/
def defaultHeaders (apiKey : String) : Headers :=
  [("Authorization", "Bearer " ++ apiKey)]

/-- Header handling shared by _get and _post:
headers.update(default-headers) when the caller dict is truthy, then
headers or default-headers.  The first component is the headers the request
is sent with; the second is the state of the caller-owned dict afterwards
(the update mutates it in place). -/
def mergeCallerHeaders (default : Headers) (caller : Option Headers) :
    Headers × Option Headers :=
  match caller with
  | none => (default, none)
  | some h =>
    if h.isEmpty then (default, some h)
    else
      let h2 := dictUpdate h default
      (h2, some h2)

/-- Params and body handling shared by _get and _post: the local name is
rebound to a copy (or an empty dict when the argument is missing or empty),
so the caller-owned dict is left as it was.  First component: the dict the
request uses; second: the caller dict afterwards. -/
def copyCallerDict (caller : Option Headers) : Headers × Option Headers :=
  match caller with
  | none => ([], none)
  | some p => (if p.isEmpty then [] else p, some p)

/-- What a _get or _post call sends and what it leaves behind in the
caller-owned dicts. -/
structure RequestEffect where
  sentData : Headers
  sentHeaders : Headers
  callerDataAfter : Option Headers
  callerHeadersAfter : Option Headers
deriving Repr, DecidableEq

/-- Shallow embedding of the request-preparation prefix of
AsyncTonapiClient._get (params copy, header merge). -/
def getRequest (apiKey : String) (params headers : Option Headers) :
    RequestEffect :=
  let q := copyCallerDict params
  let h := mergeCallerHeaders (defaultHeaders apiKey) headers
  ⟨q.1, h.1, q.2, h.2⟩

/-- Shallow embedding of the request-preparation prefix of
AsyncTonapiClient._post (body copy, header merge). -/
def postRequest (apiKey : String) (body headers : Option Headers) :
    RequestEffect :=
  let b := copyCallerDict body
  let h := mergeCallerHeaders (defaultHeaders apiKey) headers
  ⟨b.1, h.1, b.2, h.2⟩

/-- Assigning a key makes lookup of that key yield the new value. -/
theorem dictGet_dictSet_self (d : Headers) (k v : String) :
    dictGet (dictSet d k v) k = some v := by
  induction d with
  | nil => simp [dictSet, dictGet]
  | cons a t ih =>
      obtain ⟨x, y⟩ := a
      by_cases hx : x = k
      · subst hx
        simp [dictSet, dictGet]
      · simp [dictSet, dictGet, hx, ih]

/-- Assigning a key leaves lookup of every other key unchanged. -/
theorem dictGet_dictSet_ne (d : Headers) (k v k2 : String) (hk : k2 ≠ k) :
    dictGet (dictSet d k v) k2 = dictGet d k2 := by
  induction d with
  | nil => simp [dictSet, dictGet, Ne.symm hk]
  | cons a t ih =>
      obtain ⟨x, y⟩ := a
      by_cases hx : x = k
      · subst hx
        simp [dictSet, dictGet, Ne.symm hk]
      · simp [dictSet, dictGet, hx, ih]

/-- Assigning an absent key appends its binding at the end. -/
theorem dictSet_of_absent (d : Headers) (k v : String)
    (h : dictGet d k = none) : dictSet d k v = d ++ [(k, v)] := by
  induction d with
  | nil => simp [dictSet]
  | cons a t ih =>
      obtain ⟨x, y⟩ := a
      by_cases hx : x = k
      · subst hx
        simp [dictGet] at h
      · simp only [dictGet, hx, if_false] at h
        simp [dictSet, hx, ih h]

/-- Counterexample to C1: with api key key0 and caller headers already
holding Authorization Bearer caller, the request is sent with the default
Authorization Bearer key0 — dict.update lets the default overwrite the
caller entry, not the other way round. -/
theorem callerAuthorization_overridden_counterexample :
    dictGet (getRequest "key0" none
      (some [("Authorization", "Bearer caller")])).sentHeaders "Authorization" =
      some "Bearer key0" ∧
    some "Bearer key0" ≠ some "Bearer caller" := by
  constructor
  · rfl
  · decide

/-- C1 amended: when the caller supplies a non-empty headers dict, the
request carries every caller entry for keys other than Authorization, and
its Authorization entry is always the default Bearer value built from the
API key — the default is merged over the caller headers, so a
caller-supplied Authorization entry is overwritten rather than kept.  The
same holds for _get and _post. -/
theorem headerMerge_default_wins (apiKey : String) (h : Headers)
    (params : Option Headers) (hne : h.isEmpty = false) :
    dictGet (getRequest apiKey params (some h)).sentHeaders "Authorization" =
      some ("Bearer " ++ apiKey) ∧
    dictGet (postRequest apiKey params (some h)).sentHeaders "Authorization" =
      some ("Bearer " ++ apiKey) ∧
    ∀ k v, k ≠ "Authorization" → dictGet h k = some v →
      dictGet (getRequest apiKey params (some h)).sentHeaders k = some v ∧
      dictGet (postRequest apiKey params (some h)).sentHeaders k = some v := by
  have hused : (getRequest apiKey params (some h)).sentHeaders =
      dictSet h "Authorization" ("Bearer " ++ apiKey) := by
    simp [getRequest, mergeCallerHeaders, hne, dictUpdate, defaultHeaders]
  have hused2 : (postRequest apiKey params (some h)).sentHeaders =
      dictSet h "Authorization" ("Bearer " ++ apiKey) := by
    simp [postRequest, mergeCallerHeaders, hne, dictUpdate, defaultHeaders]
  refine ⟨?_, ?_, ?_⟩
  · rw [hused, dictGet_dictSet_self]
  · rw [hused2, dictGet_dictSet_self]
  · intro k v hk hkv
    rw [hused, hused2, dictGet_dictSet_ne h _ _ _ hk, hkv]
    exact ⟨rfl, rfl⟩

/-- Witness for the amended C1: one custom header and api key key1. -/
theorem headerMerge_default_wins_witness :
    dictGet (getRequest "key1" none (some [("X-Foo", "1")])).sentHeaders
      "Authorization" = some "Bearer key1" ∧
    dictGet (getRequest "key1" none (some [("X-Foo", "1")])).sentHeaders
      "X-Foo" = some "1" :=
  ⟨(headerMerge_default_wins "key1" [("X-Foo", "1")] none rfl).1,
   ((headerMerge_default_wins "key1" [("X-Foo", "1")] none rfl).2.2
      "X-Foo" "1" (by decide) rfl).1⟩

/-- Counterexample to C8: a caller headers dict without Authorization is
mutated by the call — dict.update appends the default Authorization binding
to the caller-owned dict in place. -/
theorem callerHeaders_mutated_counterexample :
    (getRequest "k" none (some [("X", "1")])).callerHeadersAfter =
      some [("X", "1"), ("Authorization", "Bearer k")] ∧
    (getRequest "k" none (some [("X", "1")])).callerHeadersAfter ≠
      some [("X", "1")] := by
  constructor
  · rfl
  · decide

/-- C8 amended: the caller-supplied query and body dicts are copied before
use and left unchanged by _get and _post, but the caller-owned headers
dict is not: when it is non-empty, the default headers are merged into it
in place, so a headers dict without an Authorization entry grows by the
default binding and differs from its original value after the call. -/
theorem callerDicts_frame (apiKey : String) (params : Option Headers)
    (h : Headers) (hne : h.isEmpty = false)
    (hnoauth : dictGet h "Authorization" = none) :
    (getRequest apiKey params (some h)).callerDataAfter = params ∧
    (postRequest apiKey params (some h)).callerDataAfter = params ∧
    (getRequest apiKey params (some h)).callerHeadersAfter =
      some (h ++ defaultHeaders apiKey) ∧
    (postRequest apiKey params (some h)).callerHeadersAfter =
      some (h ++ defaultHeaders apiKey) ∧
    (getRequest apiKey params (some h)).callerHeadersAfter ≠ some h := by
  have hafter : dictUpdate h (defaultHeaders apiKey) =
      h ++ defaultHeaders apiKey := by
    simp only [dictUpdate, defaultHeaders, List.foldl]
    exact dictSet_of_absent h _ _ hnoauth
  refine ⟨?_, ?_, ?_, ?_, ?_⟩
  · cases params <;> rfl
  · cases params <;> rfl
  · simp [getRequest, mergeCallerHeaders, hne, hafter]
  · simp [postRequest, mergeCallerHeaders, hne, hafter]
  · simp only [getRequest, mergeCallerHeaders, hne, Bool.false_eq_true,
      if_false, hafter]
    intro heq
    have hlen := congrArg List.length (Option.some.inj heq)
    simp [defaultHeaders] at hlen

/-- Witness for the amended C8: concrete params and a one-entry headers
dict. -/
theorem callerDicts_frame_witness :
    (getRequest "k" (some [("limit", "100")]) (some [("X", "1")])).callerDataAfter =
      some [("limit", "100")] ∧
    (getRequest "k" (some [("limit", "100")]) (some [("X", "1")])).callerHeadersAfter ≠
      some [("X", "1")] :=
  ⟨(callerDicts_frame "k" (some [("limit", "100")]) [("X", "1")] rfl rfl).1,
   (callerDicts_frame "k" (some [("limit", "100")]) [("X", "1")] rfl rfl).2.2.2.2⟩

/-- Loop body of AccountMethod.get_all_nfts, fuelled: fetch the page of
size limit at the current offset, append it, advance the offset by limit,
and stop as soon as a page has a number of items different from limit.
The fetch argument abstracts AccountMethod.get_nfts applied to the fixed
account, collection and ownership arguments, taking the limit and offset
the loop passes; the counter counts page requests. -/
def getAllNftsGo {α : Type} (fetch : Nat → Nat → List α) (limit : Nat) :
    Nat → Nat → List α → Nat → Option (List α × Nat)
  | 0, _, _, _ => none
  | fuel + 1, offset, acc, count =>
    let page := fetch limit offset
    if page.length ≠ limit then some (acc ++ page, count + 1)
    else getAllNftsGo fetch limit fuel (offset + limit) (acc ++ page) (count + 1)

/-- Shallow embedding of AccountMethod.get_all_nfts: the while loop starts
at offset 0 with the fixed page size 1000 and an empty accumulator.  The
fuel bounds the unbounded while loop of the source; none means the loop
would still be running after that many iterations. -/
def getAllNfts {α : Type} (fuel : Nat) (fetch : Nat → Nat → List α) :
    Option (List α × Nat) :=
  getAllNftsGo fetch 1000 fuel 0 [] 0

/-- Unfolding equation of the fuelled pagination loop. -/
theorem getAllNftsGo_step {α : Type} (fetch : Nat → Nat → List α)
    (limit fuel offset : Nat) (acc : List α) (count : Nat) :
    getAllNftsGo fetch limit (fuel + 1) offset acc count =
      (if (fetch limit offset).length ≠ limit then
        some (acc ++ fetch limit offset, count + 1)
      else
        getAllNftsGo fetch limit fuel (offset + limit)
          (acc ++ fetch limit offset) (count + 1)) := rfl

/-- C7: get_all_nfts requests pages of size 1000 at offsets 0, 1000, 2000,
..., stops at the first page whose length differs from 1000 (not only at an
empty page), and returns the concatenation of the pages in request order.
With pages of sizes 1000, 1000 and 400 it returns all 2400 items after
exactly 3 page requests, for any fuel at least 3. -/
theorem getAllNfts_three_pages {α : Type} (fetch : Nat → Nat → List α)
    (fuel : Nat)
    (h0 : (fetch 1000 0).length = 1000)
    (h1 : (fetch 1000 1000).length = 1000)
    (h2 : (fetch 1000 2000).length = 400) :
    getAllNfts (fuel + 3) fetch =
      some (fetch 1000 0 ++ fetch 1000 1000 ++ fetch 1000 2000, 3) ∧
    (fetch 1000 0 ++ fetch 1000 1000 ++ fetch 1000 2000).length = 2400 := by
  constructor
  · show getAllNftsGo fetch 1000 (fuel + 2 + 1) 0 [] 0 = _
    rw [getAllNftsGo_step]
    simp only [h0, ne_eq, not_true_eq_false, if_false, List.nil_append,
      Nat.zero_add]
    show getAllNftsGo fetch 1000 (fuel + 1 + 1) 1000 (fetch 1000 0) 1 = _
    rw [getAllNftsGo_step]
    simp only [h1, ne_eq, not_true_eq_false, if_false]
    show getAllNftsGo fetch 1000 (fuel + 1) 2000
      (fetch 1000 0 ++ fetch 1000 1000) 2 = _
    rw [getAllNftsGo_step]
    simp [h2]
  · simp [h0, h1, h2]

set_option maxRecDepth 8000 in
/-- Witness for C7: concrete pages of 1000 zeros, 1000 ones and 400 twos. -/
theorem getAllNfts_three_pages_witness :
    getAllNfts 3 (fun _ o => if o = 0 then List.replicate 1000 (0 : Nat)
      else if o = 1000 then List.replicate 1000 1 else List.replicate 400 2) =
      some (List.replicate 1000 (0 : Nat) ++ List.replicate 1000 1 ++
        List.replicate 400 2, 3) := by
  have h := (getAllNfts_three_pages
    (fun _ o => if o = 0 then List.replicate 1000 (0 : Nat)
      else if o = 1000 then List.replicate 1000 1 else List.replicate 400 2)
    0 (by simp) (by simp) (by simp)).1
  simpa using h

end PyTonapi
